import Mathlib

/-!
Shallow embedding of the Technical Indicator & Price Forecast Engine
implemented in `src/pages/Investments.tsx` (functions `calculateSMA`,
`calculateEMA`, `calculateRSI`, `calculateMACD`, `calculateVolatility`,
`predictPrice`).  JavaScript numbers are modelled as real numbers; the
impure call `Date.now()` that fills the `lastUpdated` field is modelled
by an explicit `now : ℕ` argument threaded into `predictPrice`.
-/

namespace Fintech

noncomputable section

/-- The discrete trading signal emitted by the engine. -/
inductive Signal
  | BUY
  | SELL
  | HOLD
deriving DecidableEq

/-- The qualitative trend field of a forecast (the TypeScript union also
names `neutral`, which `predictPrice` never emits). -/
inductive Trend
  | bullish
  | bearish
  | neutral
deriving DecidableEq

/-- One projected day of the forecast path (`interface Prediction`). -/
structure Prediction where
  day : ℕ
  predicted : ℝ
  low : ℝ
  high : ℝ

/-- The indicator snapshot nested inside a forecast result. -/
structure Indicators where
  rsi : ℝ
  macd : ℝ
  volatility : ℝ
  trendStrength : ℝ
  sma5 : ℝ
  sma20 : ℝ
  momentum : ℝ

/-- The top-level forecast output (`interface PredictionResult`). -/
structure PredictionResult where
  symbol : String
  currentPrice : ℝ
  predictions : List Prediction
  predictedChange : ℝ
  confidence : ℝ
  trend : Trend
  signal : Signal
  indicators : Indicators
  lastUpdated : ℕ

/-- `calculateSMA`: the simple moving average sequence.  Entry `j` is the
average of the window `data.slice(j, j + period)`; the source iterates
`i = period-1 .. data.length-1` pushing the average of
`data.slice(i-period+1, i+1)`, which is the same sequence. -/
def calculateSMA (data : List ℝ) (period : ℕ) : List ℝ :=
  if data.length < period then []
  else
    (List.range (data.length - period + 1)).map fun j =>
      (((data.drop j).take period).sum) / (period : ℝ)

/-- Tail of `calculateEMA`: each output is `x * k + prev * (1 - k)` where
`prev` is the previous output. -/
def emaFrom (k : ℝ) : ℝ → List ℝ → List ℝ
  | _, [] => []
  | prev, x :: xs =>
      let next := x * k + prev * (1 - k)
      next :: emaFrom k next xs

/-- `calculateEMA`: exponential moving average seeded with the first raw
value, smoothing factor `k = 2/(period+1)`. -/
def calculateEMA (data : List ℝ) (period : ℕ) : List ℝ :=
  if data.length < period then []
  else
    match data with
    | [] => []
    | d :: rest => d :: emaFrom (2 / ((period : ℝ) + 1)) d rest

/-- The list of consecutive price changes `prices[i] - prices[i-1]`,
oldest first (the deltas traversed by `calculateRSI`). -/
def priceChanges (prices : List ℝ) : List ℝ :=
  List.zipWith (fun a b => b - a) prices prices.tail

/-- The gain contributed by one price change (`change > 0 ? change : 0`). -/
def gainOf (c : ℝ) : ℝ := if c > 0 then c else 0

/-- The loss contributed by one price change (`change < 0 ? -change : 0`). -/
def lossOf (c : ℝ) : ℝ := if c < 0 then -c else 0

/-- One smoothing step of `calculateRSI`; the source hardcodes the
constants 13 and 14 (`avgGain = (avgGain * 13 + gain) / 14`) whatever the
`period` argument is. -/
def rsiSmoothStep (acc : ℝ × ℝ) (c : ℝ) : ℝ × ℝ :=
  ((acc.1 * 13 + gainOf c) / 14, (acc.2 * 13 + lossOf c) / 14)

/-- The long-series branch of `calculateRSI`: initial average gain/loss
over the first `period` deltas, then the hardcoded 13/14 smoothing over
the remaining deltas; 100 when the smoothed average loss is zero, else
`100 - 100/(1 + avgGain/avgLoss)`. -/
def rsiCore (changes : List ℝ) (period : ℕ) : ℝ :=
  let avgGain := ((changes.take period).map gainOf).sum / (period : ℝ)
  let avgLoss := ((changes.take period).map lossOf).sum / (period : ℝ)
  let s := (changes.drop period).foldl rsiSmoothStep (avgGain, avgLoss)
  if s.2 = 0 then 100 else 100 - 100 / (1 + s.1 / s.2)

/-- `calculateRSI`: relative strength index.  Below `period + 1`
observations it returns the neutral 50; otherwise the smoothed
gain/loss computation of `rsiCore` over the consecutive deltas. -/
def calculateRSI (prices : List ℝ) (period : ℕ := 14) : ℝ :=
  if prices.length < period + 1 then 50
  else rsiCore (priceChanges prices) period

/-- `calculateMACD`: last EMA12 value minus last EMA26 value, 0 below 26
observations. -/
def calculateMACD (prices : List ℝ) : ℝ :=
  if prices.length < 26 then 0
  else (calculateEMA prices 12).getLastD 0 - (calculateEMA prices 26).getLastD 0

/-- The daily simple returns `(prices[i] - prices[i-1]) / prices[i-1]`
computed by `calculateVolatility`. -/
def returnsOf (prices : List ℝ) : List ℝ :=
  List.zipWith (fun a b => (b - a) / a) prices prices.tail

/-- `calculateVolatility`: annualized population standard deviation of
the daily returns, as a percentage. -/
def calculateVolatility (prices : List ℝ) : ℝ :=
  if prices.length < 2 then 0
  else
    let returns := returnsOf prices
    let mean := returns.sum / (returns.length : ℝ)
    let variance := (returns.map fun r => (r - mean) ^ 2).sum / (returns.length : ℝ)
    Real.sqrt variance * Real.sqrt 252 * 100

/-- The last element of the price series, `prices[prices.length - 1]`. -/
def currentPriceOf (prices : List ℝ) : ℝ := prices.getLastD 0

/-- Last entry of the 5-period SMA sequence (`sma5Arr[sma5Arr.length - 1]`). -/
def sma5Of (prices : List ℝ) : ℝ := (calculateSMA prices 5).getLastD 0

/-- Last entry of the 20-period SMA sequence. -/
def sma20Of (prices : List ℝ) : ℝ := (calculateSMA prices 20).getLastD 0

/-- Step 2 of `predictPrice`: `sma20 !== 0 ? (sma5 - sma20) / sma20 : 0`. -/
def trendStrengthOf (prices : List ℝ) : ℝ :=
  if sma20Of prices ≠ 0 then (sma5Of prices - sma20Of prices) / sma20Of prices else 0

/-- Step 3 of `predictPrice`: the base price is `prices[prices.length - 5]`
(the fifth element from the end) and momentum is the relative change from
it, 0 when it is 0. -/
def momentumOf (prices : List ℝ) : ℝ :=
  let price5DaysAgo := prices.getD (prices.length - 5) 0
  if price5DaysAgo ≠ 0 then (currentPriceOf prices - price5DaysAgo) / price5DaysAgo else 0

/-- Step 4 of `predictPrice`: +0.02 when RSI < 30, -0.02 when RSI > 70. -/
def rsiAdjustmentOf (prices : List ℝ) : ℝ :=
  if calculateRSI prices < 30 then 0.02
  else if calculateRSI prices > 70 then -0.02
  else 0

/-- Step 5 of `predictPrice`: the fixed-weight composite drift parameter. -/
def driftParamOf (prices : List ℝ) : ℝ :=
  trendStrengthOf prices * 0.4 + momentumOf prices * 0.4 + rsiAdjustmentOf prices

/-- Step 6 of `predictPrice`: the signal decision ladder, first matching
rule wins. -/
def signalOf (rsi trendStrength macd sma5 sma20 : ℝ) : Signal :=
  if rsi < 35 ∧ trendStrength > 0 then .BUY
  else if rsi > 65 ∧ trendStrength < 0 then .SELL
  else if macd > 0 ∧ sma5 > sma20 then .BUY
  else .HOLD

/-- Step 7 of `predictPrice`: `Math.max(50, Math.min(95, 100 - volatility * 1.5))`. -/
def confidenceOf (volatility : ℝ) : ℝ :=
  max 50 (min 95 (100 - volatility * 1.5))

/-- Daily volatility fraction used for the support/resistance bands. -/
def dailyVolOf (prices : List ℝ) : ℝ :=
  calculateVolatility prices / 100 / Real.sqrt 252

/-- The `for (day = 1; day <= 7; day++)` loop of `predictPrice`,
generalized over the starting day, the running price and the remaining
iteration count: compound the price by `1 + dailyDrift`, then emit the
point with its support/resistance band. -/
def genPredictions (dailyDrift dailyVol : ℝ) : ℝ → ℕ → ℕ → List Prediction
  | _, _, 0 => []
  | price, day, n + 1 =>
      let tempPrice := price * (1 + dailyDrift)
      let range := tempPrice * dailyVol
      { day := day, predicted := tempPrice
        low := tempPrice - range * 1.5
        high := tempPrice + range * 1.5 } ::
        genPredictions dailyDrift dailyVol tempPrice (day + 1) n

/-- `predictPrice`: the main prediction algorithm.  `now` models the
impure `Date.now()` read stored in `lastUpdated`. -/
def predictPrice (prices : List ℝ) (now : ℕ) : Option PredictionResult :=
  if prices.length < 50 then none
  else
    let currentPrice := currentPriceOf prices
    let rsi := calculateRSI prices
    let macd := calculateMACD prices
    let volatility := calculateVolatility prices
    let sma5 := sma5Of prices
    let sma20 := sma20Of prices
    let trendStrength := trendStrengthOf prices
    let momentum := momentumOf prices
    let predictedChangeParam := driftParamOf prices
    let signal := signalOf rsi trendStrength macd sma5 sma20
    let confidence := confidenceOf volatility
    let dailyDrift := predictedChangeParam / 7
    let dailyVol := dailyVolOf prices
    let predictions := genPredictions dailyDrift dailyVol currentPrice 1 7
    let finalPred := (predictions.getLastD ⟨0, 0, 0, 0⟩).predicted
    let finalChange := (finalPred - currentPrice) / currentPrice * 100
    some
      { symbol := "UNKNOWN"
        currentPrice := currentPrice
        predictions := predictions
        predictedChange := finalChange
        confidence := confidence
        trend := if finalChange > 0 then .bullish else .bearish
        signal := signal
        indicators :=
          { rsi := rsi, macd := macd, volatility := volatility
            trendStrength := trendStrength, sma5 := sma5, sma20 := sma20
            momentum := momentum }
        lastUpdated := now }

/-- Population variance of a list of reals, as the spec words it: the
mean of the squared deviations from the mean.  `calculateVolatility`
computes exactly this quantity for the returns list. -/
def popVariance (l : List ℝ) : ℝ :=
  (l.map fun r => (r - l.sum / (l.length : ℝ)) ^ 2).sum / (l.length : ℝ)

/-- Population standard deviation of a list of reals. -/
def popStdDev (l : List ℝ) : ℝ := Real.sqrt (popVariance l)

/-- Modelled from the spec's words, for comparison with `calculateRSI`:
the same pipeline but with genuine Wilder smoothing
`avg = (avg*(period-1) + current)/period` in place of the hardcoded
13/14 constants. -/
def rsiWilder (prices : List ℝ) (period : ℕ := 14) : ℝ :=
  if prices.length < period + 1 then 50
  else
    let changes := priceChanges prices
    let avgGain := ((changes.take period).map gainOf).sum / (period : ℝ)
    let avgLoss := ((changes.take period).map lossOf).sum / (period : ℝ)
    let s := (changes.drop period).foldl
      (fun acc c =>
        ((acc.1 * ((period : ℝ) - 1) + gainOf c) / (period : ℝ),
         (acc.2 * ((period : ℝ) - 1) + lossOf c) / (period : ℝ)))
      (avgGain, avgLoss)
    if s.2 = 0 then 100 else 100 - 100 / (1 + s.1 / s.2)

/-! ## C1: series shorter than 50 yields no forecast -/

/-- C1: for every price series with fewer than 50 elements, `predictPrice`
returns `none` — no full or partial `PredictionResult` is produced. -/
theorem predictPrice_short_insufficient (prices : List ℝ) (now : ℕ)
    (h : prices.length < 50) : predictPrice prices now = none := by
  simp [predictPrice, h]

/-- Witness for C1: a series of exactly 49 valid positive prices is rejected. -/
theorem predictPrice_short_insufficient_witness :
    (List.replicate 49 (100 : ℝ)).length < 50 ∧
      predictPrice (List.replicate 49 (100 : ℝ)) 0 = none :=
  ⟨by simp, predictPrice_short_insufficient _ 0 (by simp)⟩

/-! ## C2: determinism.  The source stores `lastUpdated: Date.now()`, so the
result depends on the clock reading, not only on the input series. -/

/-- Counterexample for C2: on the same 50-element series, two invocations
with different clock readings return different `PredictionResult` values
(the `lastUpdated` field differs), so not every field is a function of the
series alone. -/
theorem predictPrice_clock_dependent :
    predictPrice (List.replicate 50 (1 : ℝ)) 0 ≠
      predictPrice (List.replicate 50 (1 : ℝ)) 1 := by
  intro h
  have h2 := congrArg (Option.map fun r => r.lastUpdated) h
  simp [predictPrice] at h2

/-- C2 amended: `predictPrice` is deterministic in the pair (series, clock
reading); every field except the `lastUpdated` timestamp is a function of
the input series alone. -/
theorem predictPrice_deterministic (prices : List ℝ) (t₁ t₂ : ℕ) :
    ((predictPrice prices t₁).map fun r => { r with lastUpdated := 0 }) =
        ((predictPrice prices t₂).map fun r => { r with lastUpdated := 0 }) ∧
      (t₁ = t₂ → predictPrice prices t₁ = predictPrice prices t₂) := by
  constructor
  · by_cases h : prices.length < 50 <;> simp [predictPrice, h]
  · rintro rfl; rfl

/-- Witness for C2 amended: identical series and identical clock reading
give identical results. -/
theorem predictPrice_deterministic_witness :
    (0 : ℕ) = 0 ∧ predictPrice (List.replicate 50 (1 : ℝ)) 0 =
      predictPrice (List.replicate 50 (1 : ℝ)) 0 :=
  ⟨rfl, (predictPrice_deterministic (List.replicate 50 (1 : ℝ)) 0 0).2 rfl⟩

/-! ## C3: the source never inspects the element values -/

/-- Counterexample for C3: a 50-element series consisting entirely of the
non-positive price −1 still produces a forecast; `predictPrice` checks
only the length, not positivity or finiteness of the elements. -/
theorem predictPrice_no_element_validation :
    (-1 : ℝ) ∈ List.replicate 50 (-1 : ℝ) ∧ (-1 : ℝ) ≤ 0 ∧
      (predictPrice (List.replicate 50 (-1 : ℝ)) 0).isSome = true := by
  refine ⟨by simp, by norm_num, by simp [predictPrice]⟩

/-- C3 amended: the only validation `predictPrice` performs is the length
check — every series of 50 or more elements yields a result, whatever the
element values are. -/
theorem predictPrice_length_only_validation (prices : List ℝ) (now : ℕ)
    (h : 50 ≤ prices.length) : (predictPrice prices now).isSome = true := by
  simp [predictPrice, Nat.not_lt.mpr h]

/-- Witness for C3 amended: the all-(−1) series of length 50 is accepted. -/
theorem predictPrice_length_only_validation_witness :
    50 ≤ (List.replicate 50 (-1 : ℝ)).length ∧
      (predictPrice (List.replicate 50 (-1 : ℝ)) 0).isSome = true :=
  ⟨by simp, predictPrice_length_only_validation _ 0 (by simp)⟩

/-! ## C6: the signal decision ladder -/

/-- C6: the trading signal is decided by the first matching rule in the
order BUY (oversold uptrend), SELL (overbought downtrend), BUY (MACD
crossover), HOLD; and the signal stored in every successful forecast is
exactly this pure function of the five indicator values. -/
theorem signal_ladder (rsi ts macd s5 s20 : ℝ) :
    (rsi < 35 ∧ ts > 0 → signalOf rsi ts macd s5 s20 = .BUY) ∧
      (¬(rsi < 35 ∧ ts > 0) → rsi > 65 ∧ ts < 0 →
        signalOf rsi ts macd s5 s20 = .SELL) ∧
      (¬(rsi < 35 ∧ ts > 0) → ¬(rsi > 65 ∧ ts < 0) → macd > 0 ∧ s5 > s20 →
        signalOf rsi ts macd s5 s20 = .BUY) ∧
      (¬(rsi < 35 ∧ ts > 0) → ¬(rsi > 65 ∧ ts < 0) → ¬(macd > 0 ∧ s5 > s20) →
        signalOf rsi ts macd s5 s20 = .HOLD) ∧
      ∀ (p : List ℝ) (now : ℕ),
        ((predictPrice p now).map fun r => r.signal) =
          (predictPrice p now).map fun r =>
            signalOf r.indicators.rsi r.indicators.trendStrength
              r.indicators.macd r.indicators.sma5 r.indicators.sma20 := by
  refine ⟨fun h1 => by simp [signalOf, h1], fun h1 h2 => by simp [signalOf, h1, h2],
    fun h1 h2 h3 => by simp [signalOf, h1, h2, h3],
    fun h1 h2 h3 => by simp [signalOf, h1, h2, h3], fun p now => ?_⟩
  by_cases h : p.length < 50 <;> simp [predictPrice, h]

/-- Witness for C6: an oversold uptrend snapshot fires the first rule and
yields BUY even though the MACD rule would not match. -/
theorem signal_ladder_witness :
    (30 : ℝ) < 35 ∧ (1 : ℝ) > 0 ∧ signalOf 30 1 (-5) 0 1 = .BUY :=
  ⟨by norm_num, by norm_num,
    (signal_ladder 30 1 (-5) 0 1).1 ⟨by norm_num, by norm_num⟩⟩

/-! ## C8: the confidence clamp -/

/-- Counterexample for C8: the clamp is flat once `100 − 1.5·volatility`
falls below 50, so a strictly higher volatility does not strictly lower
the confidence: volatilities 40 and 50 both map to confidence 50. -/
theorem confidence_not_strictly_decreasing :
    (40 : ℝ) < 50 ∧ confidenceOf 40 = 50 ∧ confidenceOf 50 = 50 ∧
      ¬confidenceOf 50 < confidenceOf 40 := by
  norm_num [confidenceOf]

/-- C8 amended: the confidence stored in every forecast is
`clamp(100 − 1.5·volatility, 50, 95)`; it always lies in [50, 95] and is
weakly (not strictly) decreasing in the volatility. -/
theorem confidence_clamped (v₁ v₂ : ℝ) (p : List ℝ) (now : ℕ) :
    ((predictPrice p now).map fun r => r.confidence) =
        ((predictPrice p now).map fun r => confidenceOf r.indicators.volatility) ∧
      50 ≤ confidenceOf v₁ ∧ confidenceOf v₁ ≤ 95 ∧
      (v₁ ≤ v₂ → confidenceOf v₂ ≤ confidenceOf v₁) := by
  refine ⟨?_, le_max_left _ _, max_le (by norm_num) (min_le_left _ _), fun h => ?_⟩
  · by_cases h : p.length < 50 <;> simp [predictPrice, h]
  · have : (100 : ℝ) - v₂ * 1.5 ≤ 100 - v₁ * 1.5 := by linarith
    exact max_le_max le_rfl (min_le_min le_rfl this)

/-- Witness for C8 amended: volatility 0 gives confidence 95, volatility 10
gives 85, and the map is weakly decreasing from 0 to 10. -/
theorem confidence_clamped_witness :
    (0 : ℝ) ≤ 10 ∧ confidenceOf 10 ≤ confidenceOf 0 :=
  ⟨by norm_num, (confidence_clamped 0 10 [] 0).2.2.2 (by norm_num)⟩

/-! ## C9: volatility -/

/-- A list all of whose elements coincide has population variance 0. -/
theorem popVariance_const (l : List ℝ) (h : ∀ x ∈ l, ∀ y ∈ l, x = y) :
    popVariance l = 0 := by
  rcases l with _ | ⟨a, t⟩
  · simp [popVariance]
  · have hall : ∀ x ∈ a :: t, x = a := fun x hx => h x hx a (by simp)
    have hsum : (a :: t).sum = (a :: t).length • a := List.sum_eq_card_nsmul _ a hall
    have hlen : ((a :: t).length : ℝ) ≠ 0 := Nat.cast_ne_zero.mpr (by simp)
    have hmean : (a :: t).sum / ((a :: t).length : ℝ) = a := by
      rw [hsum, nsmul_eq_mul, mul_comm, mul_div_assoc, div_self hlen, mul_one]
    have hzero : ((a :: t).map fun r => (r - (a :: t).sum / ((a :: t).length : ℝ)) ^ 2).sum = 0 := by
      apply List.sum_eq_zero
      intro x hx
      rcases List.mem_map.mp hx with ⟨r, hr, rfl⟩
      rw [hmean, hall r hr]
      ring
    rw [popVariance, hzero, zero_div]

/-- `calculateVolatility` never returns a negative value (both square
roots are non-negative). -/
theorem calculateVolatility_nonneg (p : List ℝ) : 0 ≤ calculateVolatility p := by
  have hif : calculateVolatility p =
      if p.length < 2 then 0 else popStdDev (returnsOf p) * Real.sqrt 252 * 100 := rfl
  rw [hif]
  split
  · exact le_refl 0
  · exact mul_nonneg (mul_nonneg (Real.sqrt_nonneg _) (Real.sqrt_nonneg _)) (by norm_num)

/-- C9: `calculateVolatility` is non-negative, returns 0 below two
observations, returns 0 whenever all daily returns coincide, and for two
or more observations equals the population standard deviation of the
daily returns annualized by √252 and expressed as a percentage. -/
theorem calculateVolatility_spec (p : List ℝ) :
    0 ≤ calculateVolatility p ∧
      (p.length < 2 → calculateVolatility p = 0) ∧
      ((∀ x ∈ returnsOf p, ∀ y ∈ returnsOf p, x = y) → calculateVolatility p = 0) ∧
      (2 ≤ p.length →
        calculateVolatility p = popStdDev (returnsOf p) * Real.sqrt 252 * 100) := by
  have hif : calculateVolatility p =
      if p.length < 2 then 0 else popStdDev (returnsOf p) * Real.sqrt 252 * 100 := rfl
  refine ⟨calculateVolatility_nonneg p, fun h => by rw [hif, if_pos h], fun h => ?_,
    fun h => by rw [hif, if_neg (Nat.not_lt.mpr h)]⟩
  · rw [hif]
    split
    · rfl
    · rw [popStdDev, popVariance_const _ h, Real.sqrt_zero, zero_mul, zero_mul]

/-- Witness for C9: a single observation gives volatility 0, and a
three-observation series realizes the annualized-population-deviation
formula. -/
theorem calculateVolatility_spec_witness :
    ([(1 : ℝ)].length < 2 ∧ calculateVolatility [(1 : ℝ)] = 0) ∧
      (2 ≤ [(1 : ℝ), 2, 1].length ∧
        calculateVolatility [(1 : ℝ), 2, 1] =
          popStdDev (returnsOf [(1 : ℝ), 2, 1]) * Real.sqrt 252 * 100) :=
  ⟨⟨by simp, (calculateVolatility_spec [(1 : ℝ)]).2.1 (by simp)⟩,
    ⟨by simp, (calculateVolatility_spec [(1 : ℝ), 2, 1]).2.2.2 (by simp)⟩⟩

/-! ## C7: the RSI computation -/

/-- The gain of a price change is non-negative. -/
theorem gainOf_nonneg (c : ℝ) : 0 ≤ gainOf c := by
  unfold gainOf; split <;> linarith

/-- The loss of a price change is non-negative. -/
theorem lossOf_nonneg (c : ℝ) : 0 ≤ lossOf c := by
  unfold lossOf; split <;> linarith

/-- The smoothing fold of `calculateRSI` keeps both running averages
non-negative. -/
theorem rsiSmooth_fold_nonneg (l : List ℝ) :
    ∀ a b : ℝ, 0 ≤ a → 0 ≤ b →
      0 ≤ (l.foldl rsiSmoothStep (a, b)).1 ∧ 0 ≤ (l.foldl rsiSmoothStep (a, b)).2 := by
  induction l with
  | nil => exact fun a b ha hb => ⟨ha, hb⟩
  | cons c t ih =>
      intro a b ha hb
      simp only [List.foldl_cons, rsiSmoothStep]
      exact ih _ _ (div_nonneg (by linarith [gainOf_nonneg c]) (by norm_num))
        (div_nonneg (by linarith [lossOf_nonneg c]) (by norm_num))

/-- When every remaining change is non-negative, the smoothed average
loss starting from 0 stays 0. -/
theorem rsiSmooth_fold_loss_zero (l : List ℝ) :
    ∀ a : ℝ, (∀ c ∈ l, 0 ≤ c) → (l.foldl rsiSmoothStep (a, 0)).2 = 0 := by
  induction l with
  | nil => intro a _; rfl
  | cons c t ih =>
      intro a h
      have hc : lossOf c = 0 := by
        simp [lossOf, not_lt.mpr (h c (by simp))]
      simp only [List.foldl_cons, rsiSmoothStep, hc]
      norm_num
      exact ih _ fun d hd => h d (by simp [hd])

/-- The final RSI expression lies in [0, 100] whenever the smoothed
averages are non-negative. -/
theorem rsi_final_bounds (a b : ℝ) (ha : 0 ≤ a) (hb : 0 ≤ b) :
    0 ≤ (if b = 0 then (100 : ℝ) else 100 - 100 / (1 + a / b)) ∧
      (if b = 0 then (100 : ℝ) else 100 - 100 / (1 + a / b)) ≤ 100 := by
  split
  · norm_num
  · have hrs : 0 ≤ a / b := div_nonneg ha hb
    have h1 : (0 : ℝ) < 1 + a / b := by linarith
    have h2 : (0 : ℝ) < 100 / (1 + a / b) := by positivity
    have h3 : 100 / (1 + a / b) ≤ 100 := by
      rw [div_le_iff₀ h1]
      nlinarith
    constructor <;> linarith

/-- `rsiCore` lies in [0, 100]. -/
theorem rsiCore_bounds (changes : List ℝ) (period : ℕ) :
    0 ≤ rsiCore changes period ∧ rsiCore changes period ≤ 100 := by
  have ha : 0 ≤ ((changes.take period).map gainOf).sum / (period : ℝ) := by
    refine div_nonneg (List.sum_nonneg ?_) (by positivity)
    intro x hx
    rcases List.mem_map.mp hx with ⟨c, _, rfl⟩
    exact gainOf_nonneg c
  have hb : 0 ≤ ((changes.take period).map lossOf).sum / (period : ℝ) := by
    refine div_nonneg (List.sum_nonneg ?_) (by positivity)
    intro x hx
    rcases List.mem_map.mp hx with ⟨c, _, rfl⟩
    exact lossOf_nonneg c
  obtain ⟨h1, h2⟩ := rsiSmooth_fold_nonneg (changes.drop period) _ _ ha hb
  exact rsi_final_bounds _ _ h1 h2

/-- When every change is non-negative, `rsiCore` returns exactly 100. -/
theorem rsiCore_gain_only (changes : List ℝ) (period : ℕ)
    (h : ∀ c ∈ changes, 0 ≤ c) : rsiCore changes period = 100 := by
  have hb0 : ((changes.take period).map lossOf).sum / (period : ℝ) = 0 := by
    have hz : ∀ x ∈ (changes.take period).map lossOf, x = 0 := by
      intro x hx
      rcases List.mem_map.mp hx with ⟨c, hc, rfl⟩
      simp [lossOf, not_lt.mpr (h c (List.mem_of_mem_take hc))]
    rw [List.sum_eq_zero hz, zero_div]
  have hfold : ((changes.drop period).foldl rsiSmoothStep
      (((changes.take period).map gainOf).sum / (period : ℝ), 0)).2 = 0 :=
    rsiSmooth_fold_loss_zero _ _ fun c hc => h c (List.mem_of_mem_drop hc)
  simp only [rsiCore, hb0, hfold, if_pos]

/-- Counterexample for C7: with a non-default period the smoothing does
not follow Wilder's `(avg*(period-1) + current)/period` rule — the 13/14
constants are hardcoded, so `calculateRSI` and the spec's formula
disagree at period 2. -/
theorem calculateRSI_not_wilder_for_period_two :
    calculateRSI [(3 : ℝ), 1, 2, 1, 3] 2 = 22500 / 589 ∧
      rsiWilder [(3 : ℝ), 1, 2, 1, 3] 2 = 900 / 13 ∧
      (22500 / 589 : ℝ) ≠ 900 / 13 := by
  refine ⟨?_, ?_, by norm_num⟩
  · norm_num [calculateRSI, rsiCore, priceChanges, gainOf, lossOf, rsiSmoothStep]
  · norm_num [rsiWilder, priceChanges, gainOf, lossOf]

/-- C7 amended: for the default period 14 the RSI returns the neutral 50
below 15 observations, always lies in [0, 100], and returns exactly 100
when every consecutive price change is non-negative (zero smoothed
average loss); the smoothing constants are the hardcoded 13 and 14. -/
theorem calculateRSI_spec (p : List ℝ) :
    (p.length < 15 → calculateRSI p = 50) ∧
      (0 ≤ calculateRSI p ∧ calculateRSI p ≤ 100) ∧
      (15 ≤ p.length → (∀ c ∈ priceChanges p, 0 ≤ c) → calculateRSI p = 100) := by
  by_cases hlen : p.length < 14 + 1
  · refine ⟨fun _ => by simp [calculateRSI, hlen], ?_, fun h _ => absurd h (by omega)⟩
    rw [calculateRSI, if_pos hlen]
    norm_num
  · have hcore : calculateRSI p = rsiCore (priceChanges p) 14 := by
      rw [calculateRSI, if_neg hlen]
    refine ⟨fun h => absurd h (by omega), ?_, fun _ hc => ?_⟩
    · rw [hcore]
      exact rsiCore_bounds _ _
    · rw [hcore]
      exact rsiCore_gain_only _ _ hc

/-- Witness for C7 amended: a one-element series gets the neutral 50, and
a flat 15-element series (all changes non-negative) gets exactly 100. -/
theorem calculateRSI_spec_witness :
    calculateRSI [(1 : ℝ)] = 50 ∧
      calculateRSI [(1 : ℝ), 1, 1, 1, 1, 1, 1, 1, 1, 1, 1, 1, 1, 1, 1] = 100 :=
  ⟨(calculateRSI_spec [(1 : ℝ)]).1 (by simp),
    (calculateRSI_spec _).2.2 (by simp) (by norm_num [priceChanges])⟩

/-! ## List access helpers shared by the remaining claims -/

/-- `getLastD` is `getD` at the last index. -/
theorem getLastD_eq_getD {α : Type _} (l : List α) (d : α) :
    l.getLastD d = l.getD (l.length - 1) d := by
  rw [List.getLastD_eq_getLast?, List.getLast?_eq_getElem?, List.getD_eq_getElem?_getD]

/-- The default-valued last element of a non-empty list is a member. -/
theorem getLastD_mem {α : Type _} (l : List α) (d : α) (h : l ≠ []) :
    l.getLastD d ∈ l := by
  rw [List.getLastD_eq_getLast?, List.getLast?_eq_getLast l h]
  simp only [Option.getD_some]
  exact List.getLast_mem h

/-- The last element of a mapped range. -/
theorem range_map_getLastD {α : Type _} (f : ℕ → α) (n : ℕ) (d : α) (h : 0 < n) :
    ((List.range n).map f).getLastD d = f (n - 1) := by
  obtain ⟨m, rfl⟩ := Nat.exists_eq_succ_of_ne_zero h.ne'
  rw [List.range_succ, List.map_append, List.map_singleton, List.getLastD_concat]
  simp

/-- The last entry of `calculateSMA` is the average of the trailing
`period` observations. -/
theorem calculateSMA_getLastD (data : List ℝ) (period : ℕ)
    (h2 : period ≤ data.length) :
    (calculateSMA data period).getLastD 0 =
      ((data.drop (data.length - period)).take period).sum / (period : ℝ) := by
  simp only [calculateSMA, if_neg (Nat.not_lt.mpr h2)]
  rw [range_map_getLastD _ _ _ (by omega)]
  simp

/-- With positive prices, the last entry of an SMA sequence is positive. -/
theorem smaLast_pos (data : List ℝ) (period : ℕ) (h0 : 0 < period)
    (h2 : period ≤ data.length) (hpos : ∀ x ∈ data, 0 < x) :
    0 < (calculateSMA data period).getLastD 0 := by
  rw [calculateSMA_getLastD data period h2]
  refine div_pos (List.sum_pos _ ?_ ?_) (by exact_mod_cast h0)
  · intro x hx
    exact hpos x (List.mem_of_mem_drop (List.mem_of_mem_take hx))
  · have hlen : ((data.drop (data.length - period)).take period).length = period := by
      simp only [List.length_take, List.length_drop]
      omega
    intro hnil
    rw [hnil] at hlen
    simp only [List.length_nil] at hlen
    omega

/-! ## C4: the momentum base price -/

/-- Counterexample for C4: on a 50-element series ending in 1, 2, 4, 8,
16, 32 the momentum stored by `predictPrice` is (32−2)/2 = 15, computed
from `prices[prices.length−5] = 2`, not (32−1)/1 = 31 as the claim's
`price[t−5]` (the element 1, six positions from the end) would give. -/
theorem momentum_not_five_back :
    ((predictPrice (List.replicate 45 (1 : ℝ) ++ [2, 4, 8, 16, 32]) 0).map
        fun r => r.indicators.momentum) = some 15 ∧
      (15 : ℝ) ≠ (32 - 1) / 1 := by
  constructor
  · have hne : ¬(List.replicate 45 (1 : ℝ) ++ [2, 4, 8, 16, 32]).length < 50 := by simp
    have hlen : (List.replicate 45 (1 : ℝ) ++ [2, 4, 8, 16, 32]).length = 50 := by simp
    have hbase : (List.replicate 45 (1 : ℝ) ++ [2, 4, 8, 16, 32]).getD 45 0 = 2 := by
      rw [List.getD_append_right _ _ _ _ (by simp)]
      simp
    have hcur : currentPriceOf (List.replicate 45 (1 : ℝ) ++ [2, 4, 8, 16, 32]) = 32 := by
      rw [currentPriceOf, getLastD_eq_getD, hlen]
      rw [List.getD_append_right _ _ _ _ (by simp)]
      simp
    simp only [predictPrice, if_neg hne, Option.map_some', Option.some.injEq]
    simp only [momentumOf, hlen, hcur]
    have h45 : (50 : ℕ) - 5 = 45 := by norm_num
    rw [h45, hbase]
    norm_num
  · norm_num

/-- C4 amended: for every series of length ≥ 50 the momentum indicator is
the relative change from the element five positions from the end — index
`t − 4` for `t` the last index — and 0 when that base price is 0. -/
theorem momentum_base_fourth_back (p : List ℝ) (now : ℕ) (h : 50 ≤ p.length) :
    ((predictPrice p now).map fun r => r.indicators.momentum) =
      some (if p.getD (p.length - 1 - 4) 0 = 0 then 0
        else (p.getD (p.length - 1) 0 - p.getD (p.length - 1 - 4) 0) /
          p.getD (p.length - 1 - 4) 0) := by
  have hne : ¬p.length < 50 := Nat.not_lt.mpr h
  have h5 : p.length - 1 - 4 = p.length - 5 := by omega
  have hcur : currentPriceOf p = p.getD (p.length - 1) 0 := getLastD_eq_getD p 0
  simp only [predictPrice, if_neg hne, Option.map_some', Option.some.injEq]
  rw [h5]
  simp only [momentumOf, hcur]
  by_cases hb : p.getD (p.length - 5) 0 = 0
  · simp [hb]
  · simp [hb]

/-- Witness for C4 amended: on a flat series of 50 twos the momentum is
(2−2)/2 = 0, matching the amended formula. -/
theorem momentum_base_fourth_back_witness :
    50 ≤ (List.replicate 50 (2 : ℝ)).length ∧
      ((predictPrice (List.replicate 50 (2 : ℝ)) 0).map fun r => r.indicators.momentum) =
        some (if (List.replicate 50 (2 : ℝ)).getD ((List.replicate 50 (2 : ℝ)).length - 1 - 4) 0 = 0
          then 0
          else ((List.replicate 50 (2 : ℝ)).getD ((List.replicate 50 (2 : ℝ)).length - 1) 0 -
              (List.replicate 50 (2 : ℝ)).getD ((List.replicate 50 (2 : ℝ)).length - 1 - 4) 0) /
            (List.replicate 50 (2 : ℝ)).getD ((List.replicate 50 (2 : ℝ)).length - 1 - 4) 0) :=
  ⟨by simp, momentum_base_fourth_back _ 0 (by simp)⟩

/-! ## C5: the forecast path -/

/-- The generated forecast path has exactly as many points as requested. -/
theorem genPredictions_length (dd dv : ℝ) :
    ∀ (n : ℕ) (price : ℝ) (day : ℕ), (genPredictions dd dv price day n).length = n := by
  intro n
  induction n with
  | zero => intro _ _; rfl
  | succ m ih => intro price day; simp [genPredictions, ih]

/-- The day indices of the generated path are consecutive from the
starting day. -/
theorem genPredictions_map_day (dd dv : ℝ) :
    ∀ (n : ℕ) (price : ℝ) (day : ℕ),
      (genPredictions dd dv price day n).map (fun q => q.day) = List.range' day n := by
  intro n
  induction n with
  | zero => intro _ _; rfl
  | succ m ih => intro price day; simp [genPredictions, ih, List.range'_succ]

/-- Closed form of the i-th generated point: the price is the start
compounded `i+1` times, and the band is `predicted ± predicted·dv·1.5`. -/
theorem genPredictions_getD (dd dv : ℝ) :
    ∀ (n i : ℕ) (price : ℝ) (day : ℕ), i < n →
      (genPredictions dd dv price day n).getD i ⟨0, 0, 0, 0⟩ =
        { day := day + i
          predicted := price * (1 + dd) ^ (i + 1)
          low := price * (1 + dd) ^ (i + 1) - price * (1 + dd) ^ (i + 1) * dv * 1.5
          high := price * (1 + dd) ^ (i + 1) + price * (1 + dd) ^ (i + 1) * dv * 1.5 } := by
  intro n
  induction n with
  | zero => intro i _ _ h; omega
  | succ m ih =>
      intro i price day h
      cases i with
      | zero =>
          simp only [genPredictions, List.getD_cons_zero, Prediction.mk.injEq]
          refine ⟨by omega, by ring, by ring, by ring⟩
      | succ j =>
          have hj : j < m := by omega
          simp only [genPredictions, List.getD_cons_succ]
          rw [ih j (price * (1 + dd)) (day + 1) hj]
          simp only [Prediction.mk.injEq]
          refine ⟨by omega, by ring, by ring, by ring⟩

/-- C5: every successful forecast has exactly 7 points; the i-th point
(0-based) is the current price compounded `i+1` times by the daily drift
`driftParamOf/7`, with band `predicted ± predicted·dailyVol·1.5`; the
predicted change is derived from the 7th point, and the trend is bullish
exactly when that change is positive. -/
theorem forecast_path_spec (p : List ℝ) (now : ℕ) (h : 50 ≤ p.length) :
    ((predictPrice p now).map fun r => r.predictions.length) = some 7 ∧
      (∀ i, i < 7 →
        ((predictPrice p now).map fun r => r.predictions.getD i ⟨0, 0, 0, 0⟩) =
          some
            { day := 1 + i
              predicted := currentPriceOf p * (1 + driftParamOf p / 7) ^ (i + 1)
              low := currentPriceOf p * (1 + driftParamOf p / 7) ^ (i + 1) -
                currentPriceOf p * (1 + driftParamOf p / 7) ^ (i + 1) * dailyVolOf p * 1.5
              high := currentPriceOf p * (1 + driftParamOf p / 7) ^ (i + 1) +
                currentPriceOf p * (1 + driftParamOf p / 7) ^ (i + 1) * dailyVolOf p * 1.5 }) ∧
      ((predictPrice p now).map fun r => r.predictedChange) =
        some ((currentPriceOf p * (1 + driftParamOf p / 7) ^ 7 - currentPriceOf p) /
          currentPriceOf p * 100) ∧
      ((predictPrice p now).map fun r => r.trend) =
        some (if (currentPriceOf p * (1 + driftParamOf p / 7) ^ 7 - currentPriceOf p) /
            currentPriceOf p * 100 > 0 then Trend.bullish else Trend.bearish) := by
  have hne : ¬p.length < 50 := Nat.not_lt.mpr h
  have hfp : ((genPredictions (driftParamOf p / 7) (dailyVolOf p) (currentPriceOf p) 1
      7).getLastD ⟨0, 0, 0, 0⟩).predicted =
      currentPriceOf p * (1 + driftParamOf p / 7) ^ 7 := by
    rw [getLastD_eq_getD, genPredictions_length]
    have h6 : (7 : ℕ) - 1 = 6 := by norm_num
    rw [h6, genPredictions_getD _ _ 7 6 _ 1 (by norm_num)]
  simp only [predictPrice, if_neg hne, Option.map_some', hfp]
  refine ⟨by rw [genPredictions_length], fun i hi => ?_, by trivial, by trivial⟩
  rw [genPredictions_getD _ _ 7 i _ 1 hi]

/-- Witness for C5: a flat series of 50 ones yields a 7-point path. -/
theorem forecast_path_spec_witness :
    50 ≤ (List.replicate 50 (1 : ℝ)).length ∧
      ((predictPrice (List.replicate 50 (1 : ℝ)) 0).map fun r => r.predictions.length) =
        some 7 :=
  ⟨by simp, (forecast_path_spec _ 0 (by simp)).1⟩

/-! ## C10: band and day-index invariants of the forecast path -/

/-- Every point of a generated path from a positive start with positive
compounding factor and non-negative volatility fraction has a positive
predicted price lying inside its band. -/
theorem genPredictions_mem_bands (dd dv : ℝ) (hdd : 0 < 1 + dd) (hdv : 0 ≤ dv) :
    ∀ (n : ℕ) (price : ℝ) (day : ℕ), 0 < price →
      ∀ pt ∈ genPredictions dd dv price day n,
        0 < pt.predicted ∧ pt.low ≤ pt.predicted ∧ pt.predicted ≤ pt.high := by
  intro n
  induction n with
  | zero =>
      intro price day hp pt hpt
      simp [genPredictions] at hpt
  | succ m ih =>
      intro price day hp pt hpt
      have htp : 0 < price * (1 + dd) := mul_pos hp hdd
      have hband : 0 ≤ price * (1 + dd) * dv * 1.5 :=
        mul_nonneg (mul_nonneg htp.le hdv) (by norm_num)
      simp only [genPredictions, List.mem_cons] at hpt
      rcases hpt with rfl | hpt
      · exact ⟨htp, by dsimp only; linarith, by dsimp only; linarith⟩
      · exact ih _ _ htp pt hpt

/-- C10: for a series of at least 50 positive prices, every forecast
point satisfies `low ≤ predicted ≤ high` with `predicted > 0`, and the
emitted day indices are exactly 1 through 7 in ascending order. -/
theorem forecast_invariants (p : List ℝ) (now : ℕ) (h50 : 50 ≤ p.length)
    (hpos : ∀ x ∈ p, 0 < x) :
    (∀ pt ∈ ((predictPrice p now).map fun r => r.predictions).getD [],
        0 < pt.predicted ∧ pt.low ≤ pt.predicted ∧ pt.predicted ≤ pt.high) ∧
      ((predictPrice p now).map fun r => r.predictions.map fun q => q.day) =
        some [1, 2, 3, 4, 5, 6, 7] := by
  have hne : ¬p.length < 50 := Nat.not_lt.mpr h50
  have hnil : p ≠ [] := by
    intro hn
    rw [hn] at h50
    simp at h50
  have hcur : 0 < currentPriceOf p := hpos _ (getLastD_mem p 0 hnil)
  have hsma5 : 0 < sma5Of p := smaLast_pos p 5 (by norm_num) (by omega) hpos
  have hsma20 : 0 < sma20Of p := smaLast_pos p 20 (by norm_num) (by omega) hpos
  have hts : -1 < trendStrengthOf p := by
    simp only [trendStrengthOf]
    rw [if_pos hsma20.ne']
    have hq : 0 < sma5Of p / sma20Of p := div_pos hsma5 hsma20
    rw [sub_div, div_self hsma20.ne']
    linarith
  have hbase : 0 < p.getD (p.length - 5) 0 := by
    have hlt : p.length - 5 < p.length := by omega
    rw [List.getD_eq_getElem p 0 hlt]
    exact hpos _ (List.getElem_mem hlt)
  have hmom : -1 < momentumOf p := by
    simp only [momentumOf]
    rw [if_pos hbase.ne']
    have hq : 0 < currentPriceOf p / p.getD (p.length - 5) 0 := div_pos hcur hbase
    rw [sub_div, div_self hbase.ne']
    linarith
  have hadj : -0.02 ≤ rsiAdjustmentOf p := by
    simp only [rsiAdjustmentOf]
    split
    · norm_num
    · split
      · norm_num
      · norm_num
  have hdrift : 0 < 1 + driftParamOf p / 7 := by
    simp only [driftParamOf]
    nlinarith [hts, hmom, hadj]
  have hdv : 0 ≤ dailyVolOf p := by
    simp only [dailyVolOf]
    exact div_nonneg (div_nonneg (calculateVolatility_nonneg p) (by norm_num))
      (Real.sqrt_nonneg _)
  simp only [predictPrice, if_neg hne, Option.map_some', Option.getD_some]
  constructor
  · exact genPredictions_mem_bands _ _ hdrift hdv 7 _ 1 hcur
  · rw [genPredictions_map_day]
    rfl

/-- Witness for C10: the flat series of 50 twos is long enough and
positive, and its forecast path's day indices are 1..7. -/
theorem forecast_invariants_witness :
    50 ≤ (List.replicate 50 (2 : ℝ)).length ∧
      ((predictPrice (List.replicate 50 (2 : ℝ)) 0).map fun r =>
          r.predictions.map fun q => q.day) = some [1, 2, 3, 4, 5, 6, 7] :=
  ⟨by simp, (forecast_invariants _ 0 (by simp) fun x hx => by
    rw [List.eq_of_mem_replicate hx]; norm_num).2⟩

end

end Fintech
